import Mathlib

/-!
Shallow embedding of `vsts_cd_manager/continuous_delivery_manager.py`
(class `ContinuousDeliveryManager` and its helpers).

Remote collaborators (the account service, the continuous-delivery service and
the repository-info provider) are represented by scripted responses carried in a
`Collaborators` record; every function additionally reports the list of network
calls it issued and the progress-callback invocations it made, so that ordering
properties ("before any network call") are expressible.
-/

/-! ## `urllib.parse.quote` (imported at the top of the Python module) -/

/-- Uppercase hexadecimal digit, as produced by `urllib.parse.quote`. -/
def hexDigitChar (n : Nat) : Char :=
  if n < 10 then Char.ofNat (48 + n) else Char.ofNat (55 + n)

/-- Bytes left unescaped by `urllib.parse.quote` with its default `safe='/'`:
ASCII letters, digits, `_`, `.`, `-`, `~` and `/`. -/
def quoteSafeByte (b : Nat) : Bool :=
  (65 ≤ b && b ≤ 90) || (97 ≤ b && b ≤ 122) || (48 ≤ b && b ≤ 57) ||
  b == 95 || b == 46 || b == 45 || b == 126 || b == 47

/-- Percent-encoding of a single UTF-8 byte as done by `urllib.parse.quote`. -/
def quoteByte (b : Nat) : String :=
  if quoteSafeByte b then String.singleton (Char.ofNat b)
  else "%" ++ String.singleton (hexDigitChar (b / 16)) ++ String.singleton (hexDigitChar (b % 16))

/-- UTF-8 encoding of one character (byte values as naturals). -/
def utf8Bytes (c : Char) : List Nat :=
  let v := c.toNat
  if v < 128 then [v]
  else if v < 2048 then [192 + v / 64, 128 + v % 64]
  else if v < 65536 then [224 + v / 4096, 128 + (v / 64) % 64, 128 + v % 64]
  else [240 + v / 262144, 128 + (v / 4096) % 64, 128 + (v / 64) % 64, 128 + v % 64]

/-- Embedding of `urllib.parse.quote` (percent-encode the UTF-8 bytes of `s`,
keeping `quoteSafeByte` bytes verbatim), as used throughout the Python module. -/
def pyQuote (s : String) : String :=
  String.join ((s.data.flatMap utf8Bytes).map quoteByte)

/-! ## Python truthiness helpers (`x or y`, `not x` on optional strings) -/

/-- Python truthiness of an optional string: `None` and `''` are falsy. -/
def isFalsy (s : Option String) : Bool :=
  match s with
  | none => true
  | some v => v == ""

/-- Python `a or b` where `a` is an optional string and `b` a string. -/
def pyOr (a : Option String) (b : String) : String :=
  match a with
  | none => b
  | some v => if v == "" then b else v

/-- Python `a or b` on two optional strings. -/
def pyOrOpt (a b : Option String) : Option String :=
  match a with
  | none => b
  | some v => if v == "" then b else some v

/-! ## Data-transfer objects

The generated model classes (`continuous_delivery.models`, `vsts_accounts.models`)
are not part of the excerpt under `src/`; their shapes below are read off the
positional constructor calls in `continuous_delivery_manager.py` and, where the
excerpt says nothing, modelled from the spec (noted on each structure). -/

/-- Modelled from the spec: remote-side provisioning result, a status in
`queued/inProgress/succeeded/failed` plus a server-supplied status message. -/
structure CiResult where
  status : String
  status_message : String
deriving DecidableEq, Repr

/-- Modelled from the spec: the owning team-project reference inside a fetched
configuration (only its id is used, for the navigation URLs). -/
structure CiProjectRef where
  id : String
deriving DecidableEq, Repr

/-- Modelled from the spec: a remotely stored build or release pipeline
identifier returned after provisioning completes. -/
structure CiDefinitionRef where
  id : String
deriving DecidableEq, Repr

/-- Modelled from the spec: the `ci_configuration` part of a fetched
provisioning configuration: result status plus nested project and
build/release definition identifiers. -/
structure CiConfigurationStatus where
  result : CiResult
  project : Option CiProjectRef
  build_definition : Option CiDefinitionRef
  release_definition : Option CiDefinitionRef
deriving DecidableEq, Repr

/-- Modelled from the spec: a provisioning configuration as returned by the
continuous-delivery service (`submit` / `fetch` responses: id and status). -/
structure ProvisioningConfigResponse where
  id : String
  ci_configuration : CiConfigurationStatus
deriving DecidableEq, Repr

/-- Parameters of an `AuthorizationInfo`, per the two constructor calls in the
source: `AuthorizationInfoParameters('Bearer ' + token)` and
`AuthorizationInfoParameters(None, token)`. -/
structure AuthorizationInfoParameters where
  authorization_header : Option String
  access_token : Option String
deriving DecidableEq, Repr

/-- Authorization info, per `AuthorizationInfo(scheme, parameters)` calls. -/
structure AuthorizationInfo where
  scheme : String
  parameters : AuthorizationInfoParameters
deriving DecidableEq, Repr

/-- Source-repository descriptor, per `SourceRepository(type, identifier, branch,
auth_info)` in `_get_source_repository`. -/
structure SourceRepository where
  type : String
  identifier : String
  branch : String
  auth_info : Option AuthorizationInfo
deriving DecidableEq, Repr

/-- Build configuration, per the `BuildConfiguration(...)` calls in
`_get_build_configuration`. Modelled from the spec: the first constructor
argument is the platform field, the third the build-tool hint. -/
structure BuildConfiguration where
  platform : String
  working_directory : Option String
  build_tool : Option String
deriving DecidableEq, Repr

/-- Per `ProvisioningConfigurationSource('codeRepository', source_repository,
build_configuration)`. -/
structure ProvisioningConfigurationSource where
  source_type : String
  repository : SourceRepository
  build_configuration : BuildConfiguration
deriving DecidableEq, Repr

/-- Per the positional `ProvisioningConfigurationTarget('azure',
'windowsAppService', 'production', 'Production', subscription_id,
subscription_name, tenant_id, website_name, resource_group_name,
webapp_location, auth_info, slot_swap)` call; `slot_swap` is passed as `None`. -/
structure ProvisioningConfigurationTarget where
  provider : String
  target_type : String
  environment_id : String
  friendly_name : String
  subscription_id : String
  subscription_name : String
  tenant_id : String
  website_name : String
  resource_group_name : String
  location : String
  authorization_info : AuthorizationInfo
  slot_swap : Option Unit
deriving DecidableEq, Repr

/-- Per `CiArtifact(name=cd_project_name)`. -/
structure CiArtifact where
  name : String
deriving DecidableEq, Repr

/-- Per `CiConfiguration(CiArtifact(...))`. -/
structure CiConfigurationRequest where
  artifact : CiArtifact
deriving DecidableEq, Repr

/-- Per `ProvisioningConfiguration(None, source, [target], ci_config)`. -/
structure ProvisioningConfigurationRequest where
  id : Option String
  source : ProvisioningConfigurationSource
  targets : List ProvisioningConfigurationTarget
  ci_configuration : CiConfigurationRequest
deriving DecidableEq, Repr

/-- Per the `VstsInfoProvider` response used in `_get_source_repository`:
`info.repository_info.id` and `info.repository_info.project_info.name`. -/
structure VstsProjectInfo where
  name : String
deriving DecidableEq, Repr

/-- Repository part of the repository-info provider response. -/
structure VstsRepositoryInfo where
  id : String
  project_info : VstsProjectInfo
deriving DecidableEq, Repr

/-- Response of `VstsInfoProvider.get_vsts_info()`. -/
structure VstsInfo where
  repository_info : VstsRepositoryInfo
deriving DecidableEq, Repr

/-- The `_AzureInfo` fields as set by `set_azure_web_info` (credentials are an
opaque value never inspected by this module and are omitted). -/
structure AzureInfo where
  resource_group_name : String
  website_name : String
  subscription_id : String
  subscription_name : String
  tenant_id : String
  webapp_location : String
deriving DecidableEq, Repr

/-- The `_RepositoryInfo` fields as set by `set_repository_info`; `branch` and
`git_token` may be `None`. -/
structure RepositoryInfo where
  url : String
  branch : Option String
  git_token : Option String
deriving DecidableEq, Repr

/-- Final result object, per the `ContinuousDeliveryResult.__init__` field
assignments at the bottom of the source file. -/
structure ContinuousDeliveryResult where
  vsts_account_created : Bool
  vsts_account_url : String
  vsts_build_def_url : String
  vsts_release_def_url : String
  azure_resource_group : String
  azure_subscription_id : String
  azure_website_name : String
  azure_continuous_delivery_url : String
  status : String
  status_message : String
  status_details : ProvisioningConfigResponse
deriving DecidableEq, Repr

/-- One invocation of the progress callback `(count, total, message)`. -/
structure ProgressCall where
  count : Nat
  total : Nat
  message : String
deriving DecidableEq, Repr

/-- The network calls the workflow can issue, in the order they appear in the
source: the repository-info lookup, account create, account existence check,
the provisioning submit and the poll fetch. -/
inductive NetCall where
  | getVstsInfo
  | createAccount
  | accountExists
  | provisioningConfiguration
  | getProvisioningConfiguration
deriving DecidableEq, Repr

/-- Scripted responses of the remote collaborators for one workflow run:
the repository-info provider response, the `account_id` field of the
create-account response, the result of the account existence check, the
submit response, and the successive poll-fetch responses. -/
structure Collaborators where
  vsts_info : VstsInfo
  create_account_id : Option String
  account_exists_result : Bool
  submit_response : ProvisioningConfigResponse
  fetch_responses : List ProvisioningConfigResponse
deriving DecidableEq, Repr

/-! ## The poll loop (`_wait_for_cd_completion`) -/

/-- The loop guard of `_wait_for_cd_completion`: status `queued` or
`inProgress`. -/
def pendingStatus (s : String) : Bool :=
  s == "queued" || s == "inProgress"

/-- Outcome of `_wait_for_cd_completion`: either the final configuration is
returned, or `RuntimeError(status_message)` is raised on status `failed`
(the spec's RemoteProvisioningError). -/
inductive WaitOutcome where
  | completed (config : ProvisioningConfigResponse)
  | provisioningFailed (message : String)
deriving DecidableEq, Repr

/-- The `while` loop of `_wait_for_cd_completion`, with the current `config`,
the current `step`, and the scripted remaining fetch responses. Returns the
outcome, the progress calls made from the loop on, and the number of fetches
issued by the loop; `none` when the script runs out while still pending. -/
def waitLoop (config : ProvisioningConfigResponse) (step : Nat)
    (fetches : List ProvisioningConfigResponse) :
    Option (WaitOutcome × List ProgressCall × Nat) :=
  if pendingStatus config.ci_configuration.result.status then
    let step2 := step + (if step + 5 < 100 then 5 else 0)
    let report : ProgressCall :=
      ⟨step2, 100, "Setting up Team Services continuous deployment (" ++
        config.ci_configuration.result.status ++ ")"⟩
    match fetches with
    | [] => none
    | c :: rest =>
      match waitLoop c step2 rest with
      | none => none
      | some (out, tr, n) => some (out, report :: tr, n + 1)
  else if config.ci_configuration.result.status == "failed" then
    some (.provisioningFailed config.ci_configuration.result.status_message,
      [⟨100, 100, "Setting up Team Services continuous deployment (FAILED)"⟩], 0)
  else
    some (.completed config,
      [⟨100, 100, "Setting up Team Services continuous deployment (SUCCEEDED)"⟩], 0)

/-- Embedding of `_wait_for_cd_completion`: `step = 5; max = 100`, an initial
progress report, one initial fetch, then the loop. `fetches` scripts the
successive `cd.get_provisioning_configuration` responses; the returned number
counts every fetch issued (the initial one plus the in-loop re-fetches);
`none` when the script runs out while the status is still pending. -/
def wait_for_cd_completion (fetches : List ProvisioningConfigResponse) :
    Option (WaitOutcome × List ProgressCall × Nat) :=
  match fetches with
  | [] => none
  | c :: rest =>
    match waitLoop c 5 rest with
    | none => none
    | some (out, tr, n) =>
      some (out, ⟨5, 100, "Setting up Team Services continuous deployment"⟩ :: tr, n + 1)

/-! ## The URL resolver (`_get_source_repository`)

The three `re.match` patterns (with `re.IGNORECASE`) are embedded as character
list functions with the regex's leftmost-greedy semantics: `[htps]+` is the
maximal run of scheme-class characters (the next pattern character `:` is not
in the class, so no backtracking is possible there), a greedy `(.+)` before a
literal keeps the rightmost position at which the remainder still matches, `.`
never matches a newline, and a trailing `(.+)` captures to the end of the
line. Case-insensitivity is ASCII `Char.toLower` folding. -/

/-- Characters of the `[htps]+` scheme class, case-insensitively. -/
def isSchemeChar (c : Char) : Bool :=
  c.toLower == 'h' || c.toLower == 't' || c.toLower == 'p' || c.toLower == 's'

/-- Case-insensitive equality of character lists (ASCII folding), the Boolean
counterpart of `re.IGNORECASE` literal matching. -/
def eqCI (a b : List Char) : Bool :=
  a.map Char.toLower == b.map Char.toLower

/-- Does `pat` occur (case-insensitively) in `s` at position `i`? -/
def substrCIAt (pat s : List Char) (i : Nat) : Bool :=
  eqCI ((s.drop i).take pat.length) pat

/-- The part of `s` before its first newline: the region in which `.` can
match. -/
def firstLine (s : List Char) : List Char :=
  s.takeWhile (fun c => c != '\n')

/-- Greatest `i < n` with `ok i`, scanning downwards — the position a greedy
`(.+)` prefix settles on. -/
def findLastIdx (ok : Nat → Bool) : Nat → Option Nat
  | 0 => none
  | n + 1 => if ok n then some n else findLastIdx ok n

/-- Split off the `[htps]+\:\/\/` prefix common to the three patterns:
the maximal scheme-class run (nonempty) followed by the literal `://`. -/
def schemeSplit (u : List Char) : Option (List Char × List Char) :=
  let run := u.takeWhile isSchemeChar
  if run.isEmpty then none
  else
    match u.drop run.length with
    | ':' :: '/' :: '/' :: rest => some (run, rest)
    | _ => none

/-- The literal `.visualstudio.com` of the hosted-git pattern. -/
def vsHost : List Char := ".visualstudio.com".data

/-- The literal `/_git/` of the hosted-git pattern. -/
def gitSeg : List Char := "/_git/".data

/-- The literal `github.com/` of the public-Github pattern. -/
def ghHost : List Char := "github.com/".data

/-- The literal `.visualstudio.com/` of the version-control pattern. -/
def vsHostSlash : List Char := ".visualstudio.com/".data

/-- Valid positions for the `/_git/` segment after a `.visualstudio.com` match
at `p`: at or after `p + 17`, matching case-insensitively, with at least one
further character on the line for the final `(.+)`. -/
def gitPosOk (line : List Char) (p q : Nat) : Bool :=
  decide (p + 17 ≤ q) && substrCIAt gitSeg line q && decide (q + 6 < line.length)

/-- Embedding of `re.match(r'[htps]+\:\/\/(.+)\.visualstudio\.com.*\/_git\/(.+)',
uri, re.IGNORECASE)`: returns the two captured groups (account, repository)
with the greedy choice for both. -/
def matchVsGit (u : List Char) : Option (List Char × List Char) :=
  match schemeSplit u with
  | none => none
  | some (_, rest) =>
    let line := firstLine rest
    match findLastIdx
        (fun p => decide (1 ≤ p) && substrCIAt vsHost line p &&
          (findLastIdx (fun q => gitPosOk line p q) line.length).isSome)
        line.length with
    | none => none
    | some p =>
      match findLastIdx (fun q => gitPosOk line p q) line.length with
      | none => none
      | some q => some (line.take p, line.drop (q + 6))

/-- Embedding of `re.match(r'[htps]+\:\/\/github\.com\/(.+)', uri,
re.IGNORECASE)`: returns the captured group. -/
def matchGithub (u : List Char) : Option (List Char) :=
  match schemeSplit u with
  | none => none
  | some (_, rest) =>
    if substrCIAt ghHost rest 0 then
      let cap := firstLine (rest.drop 11)
      if cap.isEmpty then none else some cap
    else none

/-- Embedding of `re.match(r'[htps]+\:\/\/(.+)\.visualstudio\.com\/(.+)', uri,
re.IGNORECASE)`: returns the captured groups (account, path), greedy. -/
def matchTfvc (u : List Char) : Option (List Char × List Char) :=
  match schemeSplit u with
  | none => none
  | some (_, rest) =>
    let line := firstLine rest
    match findLastIdx
        (fun p => decide (1 ≤ p) && substrCIAt vsHostSlash line p &&
          decide (p + 18 < line.length))
        line.length with
    | none => none
    | some p => some (line.take p, line.drop (p + 18))

/-- Embedding of `_get_source_repository(uri, token, branch, cred)`: the three
patterns tried in order, defaulting to `ExternalGit` with the whole URL as
identifier. Returns the descriptor, the discovered account name, the
discovered team-project name, and the network calls issued (the hosted-git
branch performs the `_get_vsts_info` lookup, answered by `info`). -/
def get_source_repository (uri : String) (token : Option String) (branch : String)
    (info : VstsInfo) :
    SourceRepository × Option String × Option String × List NetCall :=
  match matchVsGit uri.data with
  | some (acct, _) =>
    (⟨"TfsGit", info.repository_info.id, branch, none⟩,
      some (String.mk acct), some info.repository_info.project_info.name,
      [NetCall.getVstsInfo])
  | none =>
    match matchGithub uri.data with
    | some cap =>
      (⟨"Github", String.mk cap, branch,
        some ⟨"PersonalAccessToken", ⟨none, token⟩⟩⟩, none, none, [])
    | none =>
      match matchTfvc uri.data with
      | some (acct, path) =>
        (⟨"TFVC", String.mk path, branch, none⟩, some (String.mk acct), none, [])
      | none =>
        (⟨"ExternalGit", uri, branch, none⟩, none, none, [])

/-! ## `_get_build_configuration`, `_verify_vsts_parameters`, `_get_summary` -/

/-- Embedding of `_get_build_configuration(app_type, working_directory)`;
`Except.error` models raising `RuntimeError` (the spec's ConfigurationError)
with the given message. The source string contains a `\x7b\x7d` placeholder but
never calls `.format` on it, so the message is the literal text. -/
def get_build_configuration (app_type : String) (working_directory : Option String) :
    Except String BuildConfiguration :=
  if app_type == "AspNetWap" then
    .ok ⟨app_type, working_directory, none⟩
  else if app_type == "AspNetCore" then
    .ok ⟨app_type, working_directory, none⟩
  else if app_type == "NodeJSWithGulp" then
    .ok ⟨"NodeJS", working_directory, some "Gulp"⟩
  else if app_type == "NodeJSWithGrunt" then
    .ok ⟨"NodeJS", working_directory, some "Grunt"⟩
  else
    .error "The app_type '\x7b\x7d' was not understood. Accepted values: AspNetWap, AspNetCore, NodeJSWithGulp, NodeJSWithGrunt."

/-- The guard of `_verify_vsts_parameters(cd_account, source_repository)`:
true exactly when it raises. -/
def verifyVstsParametersFails (cd_account : Option String)
    (source_repository : SourceRepository) : Bool :=
  (source_repository.type == "Github" || source_repository.type == "ExternalGit") &&
    isFalsy cd_account

/-- Embedding of `_get_summary(provisioning_configuration, account_url,
account_name, account_created, subscription_id, resource_group_name,
website_name)`; returns `none` for a falsy (absent) configuration, per
`if not provisioning_configuration: return None`. `account_name` is accepted
and unused, as in the source. -/
def get_summary (provisioning_configuration : Option ProvisioningConfigResponse)
    (account_url : String) (account_name : Option String) (account_created : Bool)
    (subscription_id resource_group_name website_name : String) :
    Option ContinuousDeliveryResult :=
  match provisioning_configuration with
  | none => none
  | some pc =>
    let summaryAccount :=
      if !account_created then
        "The Team Services account '" ++ account_url ++
          "' was updated to handle the continuous delivery.\n"
      else
        "The Team Services account '" ++ account_url ++
          "' was created to handle the continuous delivery.\n"
    let website_url :=
      "https://portal.azure.com/#resource/subscriptions/" ++ pyQuote subscription_id ++
        "/resourceGroups/" ++ pyQuote resource_group_name ++
        "/providers/Microsoft.Web/sites/" ++ pyQuote website_name ++ "/vstscd"
    let summary := "\n" ++ summaryAccount ++
      "You can check on the status of the Azure web site deployment here:\n" ++
      website_url ++ "\n"
    let urls :=
      match pc.ci_configuration.project with
      | none => ("", "")
      | some proj =>
        let build_url :=
          match pc.ci_configuration.build_definition with
          | none => ""
          | some bd =>
            account_url ++ "/" ++ pyQuote proj.id ++
              "/_build?_a=simple-process&definitionId=" ++ pyQuote bd.id
        let release_url :=
          match pc.ci_configuration.release_definition with
          | none => ""
          | some rd =>
            account_url ++ "/" ++ pyQuote proj.id ++
              "/_apps/hub/ms.vss-releaseManagement-web.hub-explorer?definitionId=" ++
              pyQuote rd.id ++ "&_a=releases"
        (build_url, release_url)
    some
      { vsts_account_created := account_created
        vsts_account_url := account_url
        vsts_build_def_url := urls.1
        vsts_release_def_url := urls.2
        azure_resource_group := resource_group_name
        azure_subscription_id := subscription_id
        azure_website_name := website_name
        azure_continuous_delivery_url := website_url
        status := "SUCCESS"
        status_message := summary
        status_details := pc }

/-! ## `setup_continuous_delivery` -/

/-- Outcome of one `setup_continuous_delivery` invocation. The three error
constructors model the three `RuntimeError` raise sites, named by the spec's
taxonomy (ConfigurationError, UnexpectedStateError, RemoteProvisioningError);
`scriptExhausted` is a model artifact for a poll script that runs out while
the remote status is still pending (the Python loop would still be polling). -/
inductive SetupOutcome where
  | ok (result : ContinuousDeliveryResult)
  | configurationError (message : String)
  | unexpectedStateError (message : String)
  | remoteProvisioningError (message : String)
  | scriptExhausted
deriving DecidableEq, Repr

/-- Embedding of `setup_continuous_delivery(azure_deployment_slot, app_type,
vsts_account_name, create_account, vsts_app_auth_token)` running against the
scripted collaborators `env`, with the instance state `azure` / `repo` set
beforehand. Returns the outcome, the network calls issued in order, and the
progress-callback invocations. -/
def setup_continuous_delivery (azure : AzureInfo) (repo : RepositoryInfo)
    (azure_deployment_slot : Option String) (app_type : String)
    (vsts_account_name : Option String) (create_account : Bool)
    (vsts_app_auth_token : String) (env : Collaborators) :
    SetupOutcome × List NetCall × List ProgressCall :=
  let branch := pyOr repo.branch "refs/heads/master"
  let resolved := get_source_repository repo.url repo.git_token branch env.vsts_info
  let source_repository := resolved.1
  let account_name := resolved.2.1
  let team_project_name := resolved.2.2.1
  let resolveCalls := resolved.2.2.2
  if verifyVstsParametersFails vsts_account_name source_repository then
    (.configurationError
      "You must provide a value for cd-account since your repo-url is not a Team Services repository.",
      resolveCalls, [])
  else
    let account_name2 := pyOrOpt vsts_account_name account_name
    let cd_project_name := pyOr team_project_name azure.website_name
    let account_url := "https://" ++ pyQuote (account_name2.getD "") ++ ".visualstudio.com"
    let acctPhase :
        Except (SetupOutcome × List NetCall × List ProgressCall)
          (Bool × List NetCall × List ProgressCall) :=
      if create_account then
        let account_created := env.create_account_id.isSome
        .ok (account_created, [NetCall.createAccount],
          ⟨0, 100, "Creating or getting Team Services account information"⟩ ::
            (if account_created then [⟨5, 100, "Team Services account created"⟩] else []))
      else if env.account_exists_result then
        .ok (false, [NetCall.accountExists], [])
      else
        .error (.configurationError
          ("'The Team Services url '" ++ account_url ++
            "' does not exist. Check the spelling and try again."),
          resolveCalls ++ [NetCall.accountExists], [])
    match acctPhase with
    | .error e => e
    | .ok (account_created, acctCalls, acctProg) =>
      let callsAcct := resolveCalls ++ acctCalls
      match get_build_configuration app_type none with
      | .error msg => (.configurationError msg, callsAcct, acctProg)
      | .ok build_configuration =>
        let source : ProvisioningConfigurationSource :=
          ⟨"codeRepository", source_repository, build_configuration⟩
        let auth_info : AuthorizationInfo :=
          ⟨"Headers", ⟨some ("Bearer " ++ vsts_app_auth_token), none⟩⟩
        let _slot_name := pyOr azure_deployment_slot "staging"
        let target : ProvisioningConfigurationTarget :=
          ⟨"azure", "windowsAppService", "production", "Production",
            azure.subscription_id, azure.subscription_name, azure.tenant_id,
            azure.website_name, azure.resource_group_name, azure.webapp_location,
            auth_info, none⟩
        let ci_config : CiConfigurationRequest := ⟨⟨cd_project_name⟩⟩
        let _config : ProvisioningConfigurationRequest := ⟨none, source, [target], ci_config⟩
        let response := env.submit_response
        let callsSubmit := callsAcct ++ [NetCall.provisioningConfiguration]
        if response.ci_configuration.result.status == "queued" then
          match wait_for_cd_completion env.fetch_responses with
          | none =>
            (.scriptExhausted,
              callsSubmit ++
                List.replicate env.fetch_responses.length NetCall.getProvisioningConfiguration,
              acctProg)
          | some (.completed config, tr, n) =>
            match get_summary (some config) account_url account_name2 account_created
                azure.subscription_id azure.resource_group_name azure.website_name with
            | some r =>
              (.ok r, callsSubmit ++ List.replicate n NetCall.getProvisioningConfiguration,
                acctProg ++ tr)
            | none => (.scriptExhausted, callsSubmit, acctProg)
          | some (.provisioningFailed msg, tr, n) =>
            (.remoteProvisioningError msg,
              callsSubmit ++ List.replicate n NetCall.getProvisioningConfiguration,
              acctProg ++ tr)
        else
          (.unexpectedStateError
            ("Unknown status returned from provisioning_configuration: " ++
              response.ci_configuration.result.status),
            callsSubmit, acctProg)

/-! ## Spec-side URL shapes (for the resolver claim)

These transcribe the three recognized URL shapes directly as string
decompositions and are compared with the pattern matchers above. -/

/-- A nonempty run of `[htps]` scheme-class characters. -/
def SchemeChars (s : List Char) : Prop :=
  s ≠ [] ∧ ∀ c ∈ s, isSchemeChar c = true

/-- No newline occurs in `s` (the region a `.` can match). -/
def NoNl (s : List Char) : Prop :=
  ∀ c ∈ s, c ≠ '\n'

/-- Case-insensitive (ASCII-folded) equality, propositionally. -/
def LowerEq (a b : List Char) : Prop :=
  a.map Char.toLower = b.map Char.toLower

/-- The `://` separator. -/
def sepChars : List Char := [':', '/', '/']

/-- The hosted-git shape: `<scheme>://<account>.visualstudio.com<mid>/_git/<char><rest>`
with the matched span newline-free, per the first pattern. -/
def IsHostedGitUrl (u : List Char) : Prop :=
  ∃ sch acct vs mid git c rest,
    u = sch ++ sepChars ++ acct ++ vs ++ mid ++ git ++ c :: rest ∧
    SchemeChars sch ∧ acct ≠ [] ∧ LowerEq vs vsHost ∧ LowerEq git gitSeg ∧
    NoNl (acct ++ vs ++ mid ++ git ++ [c])

/-- The public-Github shape: `<scheme>://github.com/<char><rest>`, per the
second pattern. -/
def IsGithubUrl (u : List Char) : Prop :=
  ∃ sch gh c rest,
    u = sch ++ sepChars ++ gh ++ c :: rest ∧
    SchemeChars sch ∧ LowerEq gh ghHost ∧ NoNl (gh ++ [c])

/-- The hosted version-control shape: `<scheme>://<account>.visualstudio.com/<char><rest>`,
per the third pattern. -/
def IsTfvcUrl (u : List Char) : Prop :=
  ∃ sch acct vs c rest,
    u = sch ++ sepChars ++ acct ++ vs ++ c :: rest ∧
    SchemeChars sch ∧ acct ≠ [] ∧ LowerEq vs vsHostSlash ∧ NoNl (acct ++ vs ++ [c])

/-- What the Github branch of the resolver extracts: the identifier is exactly
the text between the (case-insensitive) `github.com/` literal and the end of
the first line. -/
def GithubIdentSpec (u ident : List Char) : Prop :=
  ∃ sch gh tail,
    u = sch ++ sepChars ++ gh ++ ident ++ tail ∧
    SchemeChars sch ∧ LowerEq gh ghHost ∧ ident ≠ [] ∧ NoNl ident ∧
    (tail = [] ∨ ∃ t, tail = '\n' :: t)

/-- What the TFVC branch of the resolver extracts: the identifier is the text
between some `<account>.visualstudio.com/` occurrence and the end of the first
line. -/
def TfvcIdentSpec (u ident : List Char) : Prop :=
  ∃ sch acct vs tail,
    u = sch ++ sepChars ++ acct ++ vs ++ ident ++ tail ∧
    SchemeChars sch ∧ acct ≠ [] ∧ NoNl acct ∧ LowerEq vs vsHostSlash ∧
    ident ≠ [] ∧ NoNl ident ∧ (tail = [] ∨ ∃ t, tail = '\n' :: t)

/-! ## Shared concrete fixtures for witnesses -/

/-- A fetch response carrying just a status and a status message. -/
def mkStatusConfig (s m : String) : ProvisioningConfigResponse :=
  ⟨"1", ⟨⟨s, m⟩, none, none, none⟩⟩

/-- Concrete repository-info provider response used in witnesses. -/
def sampleVstsInfo : VstsInfo := ⟨⟨"repo-id-1", ⟨"proj-1"⟩⟩⟩

/-- Concrete Azure settings used in witnesses. -/
def sampleAzure : AzureInfo := ⟨"rg", "site", "sub-id", "sub-name", "tenant", "westus"⟩

/-! ## Claim theorems -/

/-- C1: with the submit answered `queued`, feeding the poll loop the scripted
fetch statuses `[queued, inProgress, inProgress, succeeded]` makes it issue
exactly 4 fetches — the initial status fetch plus exactly 3 in-loop re-fetches —
and terminate returning the configuration whose status is `succeeded`; feeding
`[queued, failed]` makes it raise (RemoteProvisioningError) with the scripted
status message of the failed configuration. -/
theorem c1_poll_loop_scripted (c1 c2 c3 c4 d1 d2 : ProvisioningConfigResponse)
    (h1 : c1.ci_configuration.result.status = "queued")
    (h2 : c2.ci_configuration.result.status = "inProgress")
    (h3 : c3.ci_configuration.result.status = "inProgress")
    (h4 : c4.ci_configuration.result.status = "succeeded")
    (h5 : d1.ci_configuration.result.status = "queued")
    (h6 : d2.ci_configuration.result.status = "failed") :
    (∃ tr, wait_for_cd_completion [c1, c2, c3, c4] = some (.completed c4, tr, 1 + 3)) ∧
    (∃ tr, wait_for_cd_completion [d1, d2] =
      some (.provisioningFailed d2.ci_configuration.result.status_message, tr, 1 + 1)) := by
  constructor
  · simp [wait_for_cd_completion, waitLoop, pendingStatus, h1, h2, h3, h4]
  · simp [wait_for_cd_completion, waitLoop, pendingStatus, h5, h6]

/-- Witness for C1 at concrete scripted configurations. -/
theorem c1_witness :
    (∃ tr, wait_for_cd_completion
        [mkStatusConfig "queued" "m1", mkStatusConfig "inProgress" "m2",
         mkStatusConfig "inProgress" "m3", mkStatusConfig "succeeded" "m4"] =
      some (.completed (mkStatusConfig "succeeded" "m4"), tr, 1 + 3)) ∧
    (∃ tr, wait_for_cd_completion [mkStatusConfig "queued" "m1", mkStatusConfig "failed" "boom"] =
      some (.provisioningFailed "boom", tr, 1 + 1)) :=
  c1_poll_loop_scripted (mkStatusConfig "queued" "m1") (mkStatusConfig "inProgress" "m2")
    (mkStatusConfig "inProgress" "m3") (mkStatusConfig "succeeded" "m4")
    (mkStatusConfig "queued" "m1") (mkStatusConfig "failed" "boom")
    rfl rfl rfl rfl rfl rfl

/-- C4: for app types `AspNetWap` and `AspNetCore` the built configuration's
platform field equals the app type; `NodeJSWithGulp` / `NodeJSWithGrunt` give
platform `NodeJS` with build-tool hint `Gulp` / `Grunt`; every other app type
raises ConfigurationError. -/
theorem c4_build_configuration (wd : Option String) :
    get_build_configuration "AspNetWap" wd = .ok ⟨"AspNetWap", wd, none⟩ ∧
    get_build_configuration "AspNetCore" wd = .ok ⟨"AspNetCore", wd, none⟩ ∧
    get_build_configuration "NodeJSWithGulp" wd = .ok ⟨"NodeJS", wd, some "Gulp"⟩ ∧
    get_build_configuration "NodeJSWithGrunt" wd = .ok ⟨"NodeJS", wd, some "Grunt"⟩ ∧
    ∀ t : String,
      t ∉ (["AspNetWap", "AspNetCore", "NodeJSWithGulp", "NodeJSWithGrunt"] : List String) →
      get_build_configuration t wd =
        .error "The app_type '\x7b\x7d' was not understood. Accepted values: AspNetWap, AspNetCore, NodeJSWithGulp, NodeJSWithGrunt." := by
  refine ⟨rfl, rfl, rfl, rfl, ?_⟩
  intro t ht
  simp only [List.mem_cons, List.not_mem_nil, or_false, not_or] at ht
  obtain ⟨ht1, ht2, ht3, ht4⟩ := ht
  simp [get_build_configuration, ht1, ht2, ht3, ht4]

/-- Witness for C4: an unsupported app type is rejected. -/
theorem c4_witness :
    get_build_configuration "Python" none =
      .error "The app_type '\x7b\x7d' was not understood. Accepted values: AspNetWap, AspNetCore, NodeJSWithGulp, NodeJSWithGrunt." :=
  (c4_build_configuration none).2.2.2.2 "Python" (by decide)

/-- C10: the branch handed to the resolver is the caller-supplied branch when
that is a nonempty string, and `refs/heads/master` when it is `None` or empty;
the resolved descriptor's branch field carries it unchanged. -/
theorem c10_branch_default (uri : String) (token : Option String) (b : Option String)
    (info : VstsInfo) :
    (get_source_repository uri token (pyOr b "refs/heads/master") info).1.branch =
      match b with
      | none => "refs/heads/master"
      | some s => if s = "" then "refs/heads/master" else s := by
  have hbr : ∀ br, (get_source_repository uri token br info).1.branch = br := by
    intro br
    rcases hv : matchVsGit uri.data with _ | ⟨a, g⟩
    · rcases hg : matchGithub uri.data with _ | cap
      · rcases ht : matchTfvc uri.data with _ | ⟨a2, p2⟩
        · simp [get_source_repository, hv, hg, ht]
        · simp [get_source_repository, hv, hg, ht]
      · simp [get_source_repository, hv, hg]
    · simp [get_source_repository, hv]
  rw [hbr]
  cases b with
  | none => rfl
  | some s =>
    by_cases hs : s = "" <;> simp [pyOr, hs]

/-! ## Progress-count bookkeeping for the poll loop -/

/-- When the status is terminal, the loop body is skipped and a single final
100/100 progress report is made. -/
lemma waitLoop_terminal (config : ProvisioningConfigResponse) (step : Nat)
    (fetches : List ProvisioningConfigResponse)
    (hp : ¬ pendingStatus config.ci_configuration.result.status = true) :
    waitLoop config step fetches =
      if config.ci_configuration.result.status == "failed" then
        some (.provisioningFailed config.ci_configuration.result.status_message,
          [⟨100, 100, "Setting up Team Services continuous deployment (FAILED)"⟩], 0)
      else
        some (.completed config,
          [⟨100, 100, "Setting up Team Services continuous deployment (SUCCEEDED)"⟩], 0) := by
  by_cases hf : config.ci_configuration.result.status == "failed" <;>
    simp [waitLoop, hp, hf]

/-- One step-cap computation: starting from the capped value for `j` elapsed
iterations, the update `step += 5 if step + 5 < max else 0` lands on the
capped value for `j + 1`. -/
lemma stepCap_succ (j : Nat) :
    min (5 + 5 * j) 95 + (if min (5 + 5 * j) 95 + 5 < 100 then 5 else 0) =
      min (5 + 5 * (j + 1)) 95 := by
  split_ifs with h <;> omega

/-- The progress counts reported by the loop, entered with the capped step for
`j` elapsed iterations, are exactly the capped-iteration formula followed by
the final 100, and every reported total is 100. -/
lemma waitLoop_counts (fetches : List ProvisioningConfigResponse) :
    ∀ (config : ProvisioningConfigResponse) (j : Nat) (out : WaitOutcome)
      (tr : List ProgressCall) (n : Nat),
      waitLoop config (min (5 + 5 * j) 95) fetches = some (out, tr, n) →
      tr.map ProgressCall.count =
        (List.range n).map (fun i => min (5 + 5 * (j + 1 + i)) 95) ++ [100] ∧
      ∀ pc ∈ tr, pc.total = 100 := by
  induction fetches with
  | nil =>
    intro config j out tr n h
    by_cases hp : pendingStatus config.ci_configuration.result.status = true
    · simp [waitLoop, hp] at h
    · rw [waitLoop_terminal config _ _ hp] at h
      by_cases hf : config.ci_configuration.result.status == "failed" <;>
        simp [hf] at h <;> obtain ⟨-, h2, h3⟩ := h <;> subst h2 <;> subst h3 <;> simp
  | cons c rest ih =>
    intro config j out tr n h
    by_cases hp : pendingStatus config.ci_configuration.result.status = true
    · rw [waitLoop.eq_def] at h
      rw [if_pos hp] at h
      simp only [stepCap_succ] at h
      cases hw : waitLoop c (min (5 + 5 * (j + 1)) 95) rest with
      | none => rw [hw] at h; simp at h
      | some v =>
        obtain ⟨o2, tr2, n2⟩ := v
        rw [hw] at h
        simp only [Option.some.injEq, Prod.mk.injEq] at h
        obtain ⟨-, htr, hn⟩ := h
        subst htr; subst hn
        obtain ⟨ih1, ih2⟩ := ih c (j + 1) o2 tr2 n2 hw
        constructor
        · have htail : (List.range n2).map (fun i => min (5 + 5 * (j + 1 + 1 + i)) 95) =
              (List.range n2).map ((fun i => min (5 + 5 * (j + 1 + i)) 95) ∘ Nat.succ) := by
            apply List.map_congr_left
            intro i _
            simp only [Function.comp_apply]
            omega
          rw [List.map_cons, ih1, htail, List.range_succ_eq_map, List.map_cons, List.map_map,
            List.cons_append]
        · intro pc hpc
          rcases List.mem_cons.mp hpc with hpc | hpc
          · subst hpc; rfl
          · exact ih2 pc hpc
    · rw [waitLoop_terminal config _ _ hp] at h
      by_cases hf : config.ci_configuration.result.status == "failed" <;>
        simp [hf] at h <;> obtain ⟨-, h2, h3⟩ := h <;> subst h2 <;> subst h3 <;> simp

/-- Progress counts of a complete `_wait_for_cd_completion` run: the initial 5,
then the capped in-loop formula, then the final 100; and all totals are 100. -/
lemma wait_for_cd_completion_counts (fetches : List ProvisioningConfigResponse)
    (out : WaitOutcome) (tr : List ProgressCall) (n : Nat)
    (h : wait_for_cd_completion fetches = some (out, tr, n)) :
    tr.map ProgressCall.count =
      5 :: ((List.range (n - 1)).map (fun i => min (5 + 5 * (0 + 1 + i)) 95) ++ [100]) ∧
    ∀ pc ∈ tr, pc.total = 100 := by
  match fetches with
  | [] => simp [wait_for_cd_completion] at h
  | c :: rest =>
    rw [wait_for_cd_completion] at h
    cases hw : waitLoop c 5 rest with
    | none => rw [hw] at h; simp at h
    | some v =>
      obtain ⟨o2, tr2, n2⟩ := v
      rw [hw] at h
      simp only [Option.some.injEq, Prod.mk.injEq] at h
      obtain ⟨-, htr, hn⟩ := h
      subst htr; subst hn
      have h5 : (5 : Nat) = min (5 + 5 * 0) 95 := by omega
      rw [h5] at hw
      obtain ⟨ih1, ih2⟩ := waitLoop_counts rest c 0 o2 tr2 n2 hw
      refine ⟨?_, ?_⟩
      · simp only [List.map_cons, ih1, Nat.add_sub_cancel]
      · intro pc hpc
        rcases List.mem_cons.mp hpc with hpc | hpc
        · subst hpc; rfl
        · exact ih2 pc hpc

/-- The capped-iteration progress formula is monotonically non-decreasing and
ends at 100. -/
lemma chain'_stepCounts (m : Nat) : ∀ j : Nat,
    List.Chain' (· ≤ ·)
      (min (5 + 5 * j) 95 ::
        ((List.range m).map (fun i => min (5 + 5 * (j + 1 + i)) 95) ++ [100])) := by
  induction m with
  | zero =>
    intro j
    simp [List.chain'_cons]
  | succ m ihm =>
    intro j
    rw [List.range_succ_eq_map, List.map_cons, List.map_map, List.cons_append]
    rw [List.chain'_cons]
    constructor
    · omega
    · have hmap : (List.range m).map ((fun i => min (5 + 5 * (j + 1 + i)) 95) ∘ Nat.succ) =
          (List.range m).map (fun i => min (5 + 5 * (j + 1 + 1 + i)) 95) := by
        apply List.map_congr_left
        intro i _
        simp only [Function.comp_apply]
        omega
      rw [hmap]
      exact ihm (j + 1)

/-- C9: over any complete poll-loop run, the progress counts passed to the
callback are monotonically non-decreasing, every count is at most the fixed
total 100 (every reported total is 100), and the counts are exactly the
function of the number of elapsed iterations — 5, then increments of 5 capped
at 95, then the final 100 — independent of the remote statuses observed. -/
theorem c9_progress_reports (fetches : List ProvisioningConfigResponse)
    (out : WaitOutcome) (tr : List ProgressCall) (n : Nat)
    (h : wait_for_cd_completion fetches = some (out, tr, n)) :
    List.Chain' (· ≤ ·) (tr.map ProgressCall.count) ∧
    (∀ pc ∈ tr, pc.count ≤ 100 ∧ pc.total = 100) ∧
    tr.map ProgressCall.count =
      5 :: ((List.range (n - 1)).map (fun i => min (5 + 5 * (0 + 1 + i)) 95) ++ [100]) := by
  obtain ⟨h1, h2⟩ := wait_for_cd_completion_counts fetches out tr n h
  refine ⟨?_, ?_, h1⟩
  · rw [h1]
    exact chain'_stepCounts (n - 1) 0
  · intro pc hpc
    refine ⟨?_, h2 pc hpc⟩
    have hmem : pc.count ∈ tr.map ProgressCall.count := List.mem_map_of_mem _ hpc
    rw [h1] at hmem
    rcases List.mem_cons.mp hmem with he | hmem
    · omega
    · rcases List.mem_append.mp hmem with hm | hm
      · obtain ⟨i, -, hi⟩ := List.mem_map.mp hm
        omega
      · simp at hm
        omega

/-- Witness for C9 on the script `[queued, succeeded]`. -/
theorem c9_witness :
    List.Chain' (· ≤ ·)
      (([⟨5, 100, "Setting up Team Services continuous deployment"⟩,
         ⟨10, 100, "Setting up Team Services continuous deployment (queued)"⟩,
         ⟨100, 100, "Setting up Team Services continuous deployment (SUCCEEDED)"⟩] :
        List ProgressCall).map ProgressCall.count) ∧
    (∀ pc ∈ ([⟨5, 100, "Setting up Team Services continuous deployment"⟩,
         ⟨10, 100, "Setting up Team Services continuous deployment (queued)"⟩,
         ⟨100, 100, "Setting up Team Services continuous deployment (SUCCEEDED)"⟩] :
        List ProgressCall), pc.count ≤ 100 ∧ pc.total = 100) ∧
    ([⟨5, 100, "Setting up Team Services continuous deployment"⟩,
      ⟨10, 100, "Setting up Team Services continuous deployment (queued)"⟩,
      ⟨100, 100, "Setting up Team Services continuous deployment (SUCCEEDED)"⟩] :
        List ProgressCall).map ProgressCall.count =
      5 :: ((List.range (2 - 1)).map (fun i => min (5 + 5 * (0 + 1 + i)) 95) ++ [100]) :=
  c9_progress_reports [mkStatusConfig "queued" "m1", mkStatusConfig "succeeded" "m2"]
    (.completed (mkStatusConfig "succeeded" "m2"))
    [⟨5, 100, "Setting up Team Services continuous deployment"⟩,
     ⟨10, 100, "Setting up Team Services continuous deployment (queued)"⟩,
     ⟨100, 100, "Setting up Team Services continuous deployment (SUCCEEDED)"⟩] 2 rfl

/-! ## Call-trace facts about the resolver -/

/-- The resolver issues either no network call or exactly the repository-info
lookup. -/
lemma resolver_calls_cases (uri : String) (token : Option String) (branch : String)
    (info : VstsInfo) :
    (get_source_repository uri token branch info).2.2.2 = [] ∨
    (get_source_repository uri token branch info).2.2.2 = [NetCall.getVstsInfo] := by
  rcases hv : matchVsGit uri.data with _ | ⟨a, g⟩
  · rcases hg : matchGithub uri.data with _ | cap
    · rcases ht : matchTfvc uri.data with _ | ⟨a2, p2⟩ <;>
        simp [get_source_repository, hv, hg, ht]
    · simp [get_source_repository, hv, hg]
  · simp [get_source_repository, hv]

/-- Only the hosted-git (`TfsGit`) branch of the resolver performs a network
call. -/
lemma resolver_calls_of_not_tfsgit (uri : String) (token : Option String) (branch : String)
    (info : VstsInfo)
    (h : (get_source_repository uri token branch info).1.type ≠ "TfsGit") :
    (get_source_repository uri token branch info).2.2.2 = [] := by
  rcases hv : matchVsGit uri.data with _ | ⟨a, g⟩
  · rcases hg : matchGithub uri.data with _ | cap
    · rcases ht : matchTfvc uri.data with _ | ⟨a2, p2⟩ <;>
        simp [get_source_repository, hv, hg, ht]
    · simp [get_source_repository, hv, hg]
  · exact absurd (by simp [get_source_repository, hv]) h

/-- C3: whenever the resolved repository kind is `Github` or `ExternalGit` and
the caller-supplied account name is missing or empty, `setup_continuous_delivery`
raises ConfigurationError with no network call (and no progress report) made,
for either value of `create_account`. -/
theorem c3_github_external_requires_account (azure : AzureInfo) (repo : RepositoryInfo)
    (slot : Option String) (app_type : String) (name : Option String)
    (create_account : Bool) (token : String) (env : Collaborators)
    (hkind : (get_source_repository repo.url repo.git_token (pyOr repo.branch "refs/heads/master")
        env.vsts_info).1.type = "Github" ∨
      (get_source_repository repo.url repo.git_token (pyOr repo.branch "refs/heads/master")
        env.vsts_info).1.type = "ExternalGit")
    (hname : isFalsy name = true) :
    setup_continuous_delivery azure repo slot app_type name create_account token env =
      (.configurationError
        "You must provide a value for cd-account since your repo-url is not a Team Services repository.",
        [], []) := by
  have hver : verifyVstsParametersFails name
      (get_source_repository repo.url repo.git_token (pyOr repo.branch "refs/heads/master")
        env.vsts_info).1 = true := by
    rcases hkind with hk | hk <;> simp [verifyVstsParametersFails, hk, hname]
  have hcalls : (get_source_repository repo.url repo.git_token (pyOr repo.branch "refs/heads/master")
      env.vsts_info).2.2.2 = [] := by
    apply resolver_calls_of_not_tfsgit
    rcases hkind with hk | hk <;> rw [hk] <;> simp
  simp [setup_continuous_delivery, hver, hcalls]

/-- Witness for C3: a Github URL with no account name. -/
theorem c3_witness :
    setup_continuous_delivery sampleAzure ⟨"https://github.com/o/r", none, some "tok"⟩
        none "AspNetWap" none false "authtok"
        ⟨sampleVstsInfo, none, true, mkStatusConfig "queued" "", []⟩ =
      (.configurationError
        "You must provide a value for cd-account since your repo-url is not a Team Services repository.",
        [], []) :=
  c3_github_external_requires_account sampleAzure ⟨"https://github.com/o/r", none, some "tok"⟩
    none "AspNetWap" none false "authtok"
    ⟨sampleVstsInfo, none, true, mkStatusConfig "queued" "", []⟩
    (Or.inl rfl) rfl

/-- C8: on the verify path (`create_account = false`), when the existence check
answers false, `setup_continuous_delivery` raises ConfigurationError whose
message names the missing account's URL, and neither the provisioning submit
nor any poll fetch is issued. -/
theorem c8_verify_path_missing_account (azure : AzureInfo) (repo : RepositoryInfo)
    (slot : Option String) (app_type : String) (a : String) (token : String)
    (env : Collaborators) (ha : a ≠ "") (hex : env.account_exists_result = false) :
    setup_continuous_delivery azure repo slot app_type (some a) false token env =
      (.configurationError
        ("'The Team Services url '" ++ ("https://" ++ pyQuote a ++ ".visualstudio.com") ++
          "' does not exist. Check the spelling and try again."),
        (get_source_repository repo.url repo.git_token (pyOr repo.branch "refs/heads/master")
          env.vsts_info).2.2.2 ++ [NetCall.accountExists], []) ∧
    NetCall.provisioningConfiguration ∉
      (setup_continuous_delivery azure repo slot app_type (some a) false token env).2.1 ∧
    NetCall.getProvisioningConfiguration ∉
      (setup_continuous_delivery azure repo slot app_type (some a) false token env).2.1 := by
  have hfal : isFalsy (some a) = false := by simp [isFalsy, ha]
  have hver : verifyVstsParametersFails (some a)
      (get_source_repository repo.url repo.git_token (pyOr repo.branch "refs/heads/master")
        env.vsts_info).1 = false := by
    simp [verifyVstsParametersFails, hfal]
  have hsub : ∀ x, pyOrOpt (some a) x = some a := by
    intro x
    simp [pyOrOpt, ha]
  have hmain : setup_continuous_delivery azure repo slot app_type (some a) false token env =
      (.configurationError
        ("'The Team Services url '" ++ ("https://" ++ pyQuote a ++ ".visualstudio.com") ++
          "' does not exist. Check the spelling and try again."),
        (get_source_repository repo.url repo.git_token (pyOr repo.branch "refs/heads/master")
          env.vsts_info).2.2.2 ++ [NetCall.accountExists], []) := by
    simp [setup_continuous_delivery, hver, hsub, hex]
  refine ⟨hmain, ?_, ?_⟩ <;> rw [hmain] <;>
    rcases resolver_calls_cases repo.url repo.git_token (pyOr repo.branch "refs/heads/master")
      env.vsts_info with hc | hc <;> simp [hc]

/-- Witness for C8: verify path against an absent account. -/
theorem c8_witness :
    setup_continuous_delivery sampleAzure ⟨"https://github.com/o/r", none, some "tok"⟩
        none "AspNetWap" (some "myacct") false "authtok"
        ⟨sampleVstsInfo, none, false, mkStatusConfig "queued" "", []⟩ =
      (.configurationError
        ("'The Team Services url '" ++ ("https://" ++ pyQuote "myacct" ++ ".visualstudio.com") ++
          "' does not exist. Check the spelling and try again."),
        [NetCall.accountExists], []) ∧
    NetCall.provisioningConfiguration ∉
      (setup_continuous_delivery sampleAzure ⟨"https://github.com/o/r", none, some "tok"⟩
        none "AspNetWap" (some "myacct") false "authtok"
        ⟨sampleVstsInfo, none, false, mkStatusConfig "queued" "", []⟩).2.1 ∧
    NetCall.getProvisioningConfiguration ∉
      (setup_continuous_delivery sampleAzure ⟨"https://github.com/o/r", none, some "tok"⟩
        none "AspNetWap" (some "myacct") false "authtok"
        ⟨sampleVstsInfo, none, false, mkStatusConfig "queued" "", []⟩).2.1 :=
  c8_verify_path_missing_account sampleAzure ⟨"https://github.com/o/r", none, some "tok"⟩
    none "AspNetWap" "myacct" "authtok"
    ⟨sampleVstsInfo, none, false, mkStatusConfig "queued" "", []⟩
    (by decide) rfl

/-- Any complete poll run issues at least one fetch. -/
lemma wait_for_cd_completion_pos (fetches : List ProvisioningConfigResponse)
    (out : WaitOutcome) (tr : List ProgressCall) (n : Nat)
    (h : wait_for_cd_completion fetches = some (out, tr, n)) : 0 < n := by
  cases fetches with
  | nil => simp [wait_for_cd_completion] at h
  | cons c rest =>
    rw [wait_for_cd_completion] at h
    cases hwl : waitLoop c 5 rest with
    | none => rw [hwl] at h; simp at h
    | some v =>
      obtain ⟨o2, tr2, n2⟩ := v
      rw [hwl] at h
      simp only [Option.some.injEq, Prod.mk.injEq] at h
      omega

/-- C6: after the single submit, a non-`queued` initial response status makes
`setup_continuous_delivery` fail with UnexpectedStateError carrying the raw
status string, with no poll fetch issued; a `queued` status proceeds to the
poll loop (here: a completing poll script yields a successful result and at
least one poll fetch appears in the call trace). -/
theorem c6_submit_status_gate (azure : AzureInfo) (repo : RepositoryInfo)
    (slot : Option String) (app_type : String) (name : Option String)
    (create_account : Bool) (token : String) (env : Collaborators)
    (bc : BuildConfiguration)
    (hver : verifyVstsParametersFails name
      (get_source_repository repo.url repo.git_token (pyOr repo.branch "refs/heads/master")
        env.vsts_info).1 = false)
    (hacct : create_account = true ∨ env.account_exists_result = true)
    (hbc : get_build_configuration app_type none = .ok bc) :
    (env.submit_response.ci_configuration.result.status ≠ "queued" →
      (setup_continuous_delivery azure repo slot app_type name create_account token env).1 =
        .unexpectedStateError
          ("Unknown status returned from provisioning_configuration: " ++
            env.submit_response.ci_configuration.result.status) ∧
      NetCall.getProvisioningConfiguration ∉
        (setup_continuous_delivery azure repo slot app_type name create_account token env).2.1) ∧
    (env.submit_response.ci_configuration.result.status = "queued" →
      ∀ cfg tr n, wait_for_cd_completion env.fetch_responses = some (.completed cfg, tr, n) →
        (∃ r, (setup_continuous_delivery azure repo slot app_type name create_account
            token env).1 = SetupOutcome.ok r) ∧
        NetCall.getProvisioningConfiguration ∈
          (setup_continuous_delivery azure repo slot app_type name create_account
            token env).2.1) := by
  constructor
  · intro hq
    have hqb : (env.submit_response.ci_configuration.result.status == "queued") = false :=
      beq_eq_false_iff_ne.mpr hq
    cases create_account with
    | true =>
      constructor
      · simp [setup_continuous_delivery, hver, hbc, hqb]
      · rcases resolver_calls_cases repo.url repo.git_token (pyOr repo.branch "refs/heads/master")
          env.vsts_info with hc | hc <;>
          simp [setup_continuous_delivery, hver, hbc, hqb, hc]
    | false =>
      have hex : env.account_exists_result = true := by
        rcases hacct with h | h
        · exact absurd h (by simp)
        · exact h
      constructor
      · simp [setup_continuous_delivery, hver, hbc, hqb, hex]
      · rcases resolver_calls_cases repo.url repo.git_token (pyOr repo.branch "refs/heads/master")
          env.vsts_info with hc | hc <;>
          simp [setup_continuous_delivery, hver, hbc, hqb, hex, hc]
  · intro hq cfg tr n hw
    have hqb : (env.submit_response.ci_configuration.result.status == "queued") = true := by
      simp [hq]
    have hn : 0 < n := wait_for_cd_completion_pos env.fetch_responses _ _ _ hw
    cases create_account with
    | true =>
      constructor
      · simp [setup_continuous_delivery, hver, hbc, hqb, hw, get_summary]
      · rcases resolver_calls_cases repo.url repo.git_token (pyOr repo.branch "refs/heads/master")
          env.vsts_info with hc | hc <;>
          simp [setup_continuous_delivery, hver, hbc, hqb, hw, hc, get_summary,
            List.mem_replicate] <;> omega
    | false =>
      have hex : env.account_exists_result = true := by
        rcases hacct with h | h
        · exact absurd h (by simp)
        · exact h
      constructor
      · simp [setup_continuous_delivery, hver, hbc, hqb, hex, hw, get_summary]
      · rcases resolver_calls_cases repo.url repo.git_token (pyOr repo.branch "refs/heads/master")
          env.vsts_info with hc | hc <;>
          simp [setup_continuous_delivery, hver, hbc, hqb, hex, hw, hc, get_summary,
            List.mem_replicate] <;> omega

/-- Witness for C6: a submit answered `banana` fails as unexpected with no poll
fetch. -/
theorem c6_witness :
    (setup_continuous_delivery sampleAzure ⟨"https://github.com/o/r", none, some "tok"⟩
        none "AspNetWap" (some "acct") true "authtok"
        ⟨sampleVstsInfo, none, true, mkStatusConfig "banana" "", []⟩).1 =
      .unexpectedStateError "Unknown status returned from provisioning_configuration: banana" ∧
    NetCall.getProvisioningConfiguration ∉
      (setup_continuous_delivery sampleAzure ⟨"https://github.com/o/r", none, some "tok"⟩
        none "AspNetWap" (some "acct") true "authtok"
        ⟨sampleVstsInfo, none, true, mkStatusConfig "banana" "", []⟩).2.1 :=
  (c6_submit_status_gate sampleAzure ⟨"https://github.com/o/r", none, some "tok"⟩
    none "AspNetWap" (some "acct") true "authtok"
    ⟨sampleVstsInfo, none, true, mkStatusConfig "banana" "", []⟩
    ⟨"AspNetWap", none, none⟩ rfl (Or.inl rfl) rfl).1 (by decide)

/-- C2 counterexample: on a second run of the create path against an account
that already exists, the create response carries the existing account's id; the
run does not raise, but it reports `account_created = True` — not `False` as
the claim states — because the code sets `account_created` to the presence of
the id in the create response. -/
theorem c2_counterexample :
    ∃ r, (setup_continuous_delivery sampleAzure ⟨"https://github.com/o/r", none, some "tok"⟩
        none "AspNetWap" (some "acct") true "authtok"
        ⟨sampleVstsInfo, some "existing-account-id", true, mkStatusConfig "queued" "",
          [mkStatusConfig "succeeded" ""]⟩).1 = SetupOutcome.ok r ∧
      r.vsts_account_created = true :=
  ⟨_, rfl, rfl⟩

/-- C2 (amended): the account-create path never raises, whatever the create
response — so a second call for an already-existing account completes — and the
reported `account_created` equals the presence of an account id in the create
response (absent id: `False`; present id: `True`). -/
theorem c2_create_path_never_raises (azure : AzureInfo) (repo : RepositoryInfo)
    (slot : Option String) (app_type : String) (name : Option String)
    (token : String) (env : Collaborators) (bc : BuildConfiguration)
    (cfg : ProvisioningConfigResponse) (tr : List ProgressCall) (n : Nat)
    (hname : isFalsy name = false)
    (hbc : get_build_configuration app_type none = .ok bc)
    (hq : env.submit_response.ci_configuration.result.status = "queued")
    (hw : wait_for_cd_completion env.fetch_responses = some (.completed cfg, tr, n)) :
    ∃ r, (setup_continuous_delivery azure repo slot app_type name true token env).1 =
        SetupOutcome.ok r ∧
      r.vsts_account_created = env.create_account_id.isSome := by
  have hver : verifyVstsParametersFails name
      (get_source_repository repo.url repo.git_token (pyOr repo.branch "refs/heads/master")
        env.vsts_info).1 = false := by
    simp [verifyVstsParametersFails, hname]
  have hqb : (env.submit_response.ci_configuration.result.status == "queued") = true := by
    simp [hq]
  simp [setup_continuous_delivery, hver, hbc, hqb, hw, get_summary]

/-- Witness for C2: a second call whose create response carries no id reports
`account_created = False` and does not raise. -/
theorem c2_witness :
    ∃ r, (setup_continuous_delivery sampleAzure ⟨"https://github.com/o/r", none, some "tok"⟩
        none "AspNetWap" (some "acct") true "authtok"
        ⟨sampleVstsInfo, none, true, mkStatusConfig "queued" "",
          [mkStatusConfig "succeeded" ""]⟩).1 = SetupOutcome.ok r ∧
      r.vsts_account_created = (none : Option String).isSome :=
  c2_create_path_never_raises sampleAzure ⟨"https://github.com/o/r", none, some "tok"⟩
    none "AspNetWap" (some "acct") "authtok"
    ⟨sampleVstsInfo, none, true, mkStatusConfig "queued" "", [mkStatusConfig "succeeded" ""]⟩
    ⟨"AspNetWap", none, none⟩ (mkStatusConfig "succeeded" "")
    [⟨5, 100, "Setting up Team Services continuous deployment"⟩,
     ⟨100, 100, "Setting up Team Services continuous deployment (SUCCEEDED)"⟩] 1
    rfl rfl rfl rfl

/-- C7 counterexample: a final configuration lacking a release-definition id
does get an empty release URL, but with a build-definition id present and the
project reference absent, the build URL is empty too — contradicting the claim
that a present build-definition id always yields a non-empty build URL. -/
theorem c7_counterexample :
    ∃ r, get_summary (some ⟨"1", ⟨⟨"succeeded", ""⟩, none, some ⟨"42"⟩, none⟩⟩)
        "https://acct.visualstudio.com" (some "acct") false "sub" "rg" "site" = some r ∧
      r.vsts_build_def_url = "" ∧ r.vsts_release_def_url = "" :=
  ⟨_, rfl, rfl, rfl⟩

/-- C7 (amended): a final configuration lacking a release-definition id always
yields an empty release URL; and whenever the project reference and a
build-definition id are both present, the build URL is non-empty and is
assembled with the project id and definition id percent-encoded (each URL is
built only when the project and the corresponding definition id are present). -/
theorem c7_summary_urls (pc : ProvisioningConfigResponse) (account_url : String)
    (an : Option String) (ac : Bool) (sub rg web : String) :
    (pc.ci_configuration.release_definition = none →
      ∃ r, get_summary (some pc) account_url an ac sub rg web = some r ∧
        r.vsts_release_def_url = "") ∧
    (∀ proj bd, pc.ci_configuration.project = some proj →
      pc.ci_configuration.build_definition = some bd →
      ∃ r, get_summary (some pc) account_url an ac sub rg web = some r ∧
        r.vsts_build_def_url =
          account_url ++ "/" ++ pyQuote proj.id ++ "/_build?_a=simple-process&definitionId=" ++
            pyQuote bd.id ∧
        r.vsts_build_def_url ≠ "") := by
  constructor
  · intro hrel
    cases hproj : pc.ci_configuration.project with
    | none => simp [get_summary, hproj]
    | some proj => simp [get_summary, hproj, hrel]
  · intro proj bd hproj hbd
    simp only [get_summary, hproj, hbd]
    refine ⟨_, rfl, rfl, ?_⟩
    intro hcontra
    apply_fun String.length at hcontra
    simp [String.length_append] at hcontra
    exact absurd hcontra.1.1.1.2 (by decide)

/-- Witness for C7: release URL empty without a release id; build URL present
and percent-encoded (`"my proj"` → `"my%20proj"`, `"a#1"` → `"a%231"`). -/
theorem c7_witness :
    (∃ r, get_summary (some ⟨"1", ⟨⟨"succeeded", ""⟩, some ⟨"my proj"⟩, some ⟨"a#1"⟩, none⟩⟩)
        "https://acct.visualstudio.com" (some "acct") false "sub" "rg" "site" = some r ∧
      r.vsts_release_def_url = "") ∧
    (∃ r, get_summary (some ⟨"1", ⟨⟨"succeeded", ""⟩, some ⟨"my proj"⟩, some ⟨"a#1"⟩, none⟩⟩)
        "https://acct.visualstudio.com" (some "acct") false "sub" "rg" "site" = some r ∧
      r.vsts_build_def_url =
        "https://acct.visualstudio.com" ++ "/" ++ pyQuote "my proj" ++
          "/_build?_a=simple-process&definitionId=" ++ pyQuote "a#1" ∧
      r.vsts_build_def_url ≠ "") ∧
    pyQuote "my proj" = "my%20proj" ∧ pyQuote "a#1" = "a%231" :=
  ⟨(c7_summary_urls ⟨"1", ⟨⟨"succeeded", ""⟩, some ⟨"my proj"⟩, some ⟨"a#1"⟩, none⟩⟩
      "https://acct.visualstudio.com" (some "acct") false "sub" "rg" "site").1 rfl,
   (c7_summary_urls ⟨"1", ⟨⟨"succeeded", ""⟩, some ⟨"my proj"⟩, some ⟨"a#1"⟩, none⟩⟩
      "https://acct.visualstudio.com" (some "acct") false "sub" "rg" "site").2
      ⟨"my proj"⟩ ⟨"a#1"⟩ rfl rfl,
   rfl, rfl⟩

/-! ## Toolkit lemmas for the resolver correctness proof -/

/-- Dropping the matched scheme run leaves the remainder of the list. -/
lemma drop_takeWhile_length (p : Char → Bool) (l : List Char) :
    l.drop (l.takeWhile p).length = l.dropWhile p := by
  induction l with
  | nil => rfl
  | cons a t ih =>
    by_cases ha : p a = true
    · rw [List.takeWhile_cons_of_pos ha, List.dropWhile_cons_of_pos ha]
      simpa using ih
    · rw [List.takeWhile_cons_of_neg ha, List.dropWhile_cons_of_neg ha]
      rfl

/-- ASCII lowering never produces a newline from a non-newline character. -/
lemma noNl_of_lowerEq {a b : List Char} (hl : LowerEq a b)
    (hb : ∀ x ∈ b.map Char.toLower, x ≠ '\n') : NoNl a := by
  intro c hc hcn
  subst hcn
  have hmem : Char.toLower '\n' ∈ a.map Char.toLower := List.mem_map_of_mem _ hc
  rw [hl] at hmem
  exact hb _ hmem rfl

/-- `LowerEq` lists have equal lengths. -/
lemma lowerEq_length {a b : List Char} (h : LowerEq a b) : a.length = b.length := by
  have := congrArg List.length h
  simpa using this

/-- A successful `schemeSplit` decomposes the input into the scheme run, the
`://` separator and the remainder. -/
lemma schemeSplit_sound {u sch rest : List Char} (h : schemeSplit u = some (sch, rest)) :
    u = sch ++ sepChars ++ rest ∧ SchemeChars sch := by
  unfold schemeSplit at h
  by_cases hrun : (u.takeWhile isSchemeChar).isEmpty
  · simp [hrun] at h
  · simp only [hrun, Bool.false_eq_true, if_false] at h
    split at h
    case _ rest0 heq =>
      simp only [Option.some.injEq, Prod.mk.injEq] at h
      obtain ⟨h1, h2⟩ := h
      subst h1
      subst h2
      have hid : u.takeWhile isSchemeChar ++ u.drop (u.takeWhile isSchemeChar).length = u := by
        rw [drop_takeWhile_length]
        exact List.takeWhile_append_dropWhile _ _
      constructor
      · rw [List.append_assoc]
        conv_lhs => rw [← hid]
        rw [heq]
        rfl
      · refine ⟨?_, fun c hc => List.mem_takeWhile_imp hc⟩
        intro hnil
        rw [hnil] at hrun
        simp at hrun
    case _ =>
      simp at h

/-- `schemeSplit` succeeds on any input of the shape scheme-run ++ `://` ++ rest. -/
lemma schemeSplit_complete {sch rest : List Char} (hs : SchemeChars sch) :
    schemeSplit (sch ++ sepChars ++ rest) = some (sch, rest) := by
  obtain ⟨hne, hall⟩ := hs
  have htw : (sch ++ sepChars ++ rest).takeWhile isSchemeChar = sch := by
    rw [List.append_assoc, List.takeWhile_append_of_pos hall]
    have hsep : (sepChars ++ rest).takeWhile isSchemeChar = [] := by
      simp [sepChars, List.takeWhile_cons, isSchemeChar]
    rw [hsep, List.append_nil]
  have hemp2 : sch.isEmpty = false := by
    cases sch with
    | nil => exact absurd rfl hne
    | cons a t => rfl
  have hdrop : (sch ++ sepChars ++ rest).drop sch.length = sepChars ++ rest := by
    rw [List.append_assoc]
    exact List.drop_left _ _
  simp only [schemeSplit]
  rw [htw, hemp2, hdrop]
  simp [sepChars]

/-- A case-insensitive literal occurrence at the length of a prefix. -/
lemma substrCIAt_of_append {pat pre mid post : List Char} (hm : LowerEq mid pat) :
    substrCIAt pat (pre ++ mid ++ post) pre.length = true := by
  have hlen : mid.length = pat.length := lowerEq_length hm
  unfold substrCIAt eqCI
  rw [List.append_assoc, List.drop_left, List.take_left' hlen, hm]
  simp

/-- A case-insensitive occurrence of a nonempty literal decomposes the string
around a `LowerEq` segment. -/
lemma substrCIAt_reconstruct {pat s : List Char} {i : Nat} (hpat : pat ≠ [])
    (h : substrCIAt pat s i = true) :
    s = s.take i ++ (s.drop i).take pat.length ++ s.drop (i + pat.length) ∧
    LowerEq ((s.drop i).take pat.length) pat ∧ i + pat.length ≤ s.length := by
  unfold substrCIAt eqCI at h
  have hle : LowerEq ((s.drop i).take pat.length) pat := by
    simpa [LowerEq] using h
  have hlen2 : ((s.drop i).take pat.length).length = pat.length := lowerEq_length hle
  have hlen3 : i + pat.length ≤ s.length := by
    have h1 : ((s.drop i).take pat.length).length = min pat.length (s.drop i).length :=
      List.length_take _ _
    rw [hlen2, List.length_drop] at h1
    have hp : 0 < pat.length := List.length_pos.mpr hpat
    omega
  refine ⟨?_, hle, hlen3⟩
  have h2 : (s.drop i).drop pat.length = s.drop (i + pat.length) := by
    rw [List.drop_drop, Nat.add_comm]
  conv_lhs => rw [← List.take_append_drop i s,
    ← List.take_append_drop pat.length (s.drop i)]
  rw [h2, ← List.append_assoc]

/-- `findLastIdx` returns a position below the bound satisfying the test. -/
lemma findLastIdx_sound {ok : Nat → Bool} :
    ∀ {n p : Nat}, findLastIdx ok n = some p → p < n ∧ ok p = true := by
  intro n
  induction n with
  | zero => intro p h; simp [findLastIdx] at h
  | succ m ih =>
    intro p h
    rw [findLastIdx] at h
    by_cases hm : ok m = true
    · rw [if_pos hm] at h
      simp only [Option.some.injEq] at h
      subst h
      exact ⟨Nat.lt_succ_self m, hm⟩
    · rw [if_neg hm] at h
      obtain ⟨h1, h2⟩ := ih h
      exact ⟨by omega, h2⟩

/-- `findLastIdx` succeeds whenever some position below the bound satisfies
the test. -/
lemma findLastIdx_isSome {ok : Nat → Bool} :
    ∀ {n p : Nat}, p < n → ok p = true → (findLastIdx ok n).isSome = true := by
  intro n
  induction n with
  | zero => intro p h; omega
  | succ m ih =>
    intro p hp hok
    rw [findLastIdx]
    by_cases hm : ok m = true
    · rw [if_pos hm]; rfl
    · rw [if_neg hm]
      have hpm : p < m := by
        rcases Nat.lt_succ_iff_lt_or_eq.mp hp with h | h
        · exact h
        · subst h; exact absurd hok hm
      exact ih hpm hok

/-- Characters of the first line are not newlines. -/
lemma firstLine_all_ne (s : List Char) : ∀ c ∈ firstLine s, c ≠ '\n' := by
  intro c hc
  have := List.mem_takeWhile_imp hc
  simpa using this

/-- `firstLine` passes over a newline-free prefix. -/
lemma firstLine_append_of_noNl {pre post : List Char} (h : ∀ c ∈ pre, c ≠ '\n') :
    firstLine (pre ++ post) = pre ++ firstLine post := by
  unfold firstLine
  exact List.takeWhile_append_of_pos (fun a ha => by simpa using h a ha)

/-- Every list is its first line followed by the rest. -/
lemma firstLine_append_drop (s : List Char) :
    s = firstLine s ++ s.dropWhile (fun c => c != '\n') :=
  (List.takeWhile_append_dropWhile _ _).symm

/-- The rest after the first line is empty or starts with a newline. -/
lemma dropWhile_newline_head (s : List Char) :
    s.dropWhile (fun c => c != '\n') = [] ∨
    ∃ t, s.dropWhile (fun c => c != '\n') = '\n' :: t := by
  induction s with
  | nil => exact Or.inl rfl
  | cons a t ih =>
    by_cases ha : a = '\n'
    · subst ha
      exact Or.inr ⟨t, by simp [List.dropWhile_cons]⟩
    · rw [List.dropWhile_cons_of_pos (by simpa using ha)]
      exact ih

/-! ## Correctness of the three pattern matchers -/

/-- A successful Github match yields the documented identifier decomposition:
the captured group is the text between the case-insensitive `github.com/`
literal and the end of the first line. -/
lemma matchGithub_some_sound {u cap : List Char} (h : matchGithub u = some cap) :
    GithubIdentSpec u cap := by
  unfold matchGithub at h
  cases hs : schemeSplit u with
  | none => rw [hs] at h; simp at h
  | some v =>
    obtain ⟨sch, rest⟩ := v
    rw [hs] at h
    simp only at h
    by_cases hgh : substrCIAt ghHost rest 0 = true
    · rw [if_pos hgh] at h
      by_cases hcap : (firstLine (rest.drop 11)).isEmpty = true
      · rw [if_pos hcap] at h
        simp at h
      · rw [if_neg hcap] at h
        simp only [Option.some.injEq] at h
        subst h
        obtain ⟨hu, hsch⟩ := schemeSplit_sound hs
        obtain ⟨-, hlow, -⟩ := substrCIAt_reconstruct (by decide : ghHost ≠ []) hgh
        have hlow2 : LowerEq (rest.take 11) ghHost := by
          simpa using hlow
        have hrest : rest = rest.take 11 ++ rest.drop 11 := (List.take_append_drop 11 rest).symm
        have hsplit2 : rest.drop 11 =
            firstLine (rest.drop 11) ++ (rest.drop 11).dropWhile (fun c => c != '\n') :=
          firstLine_append_drop _
        refine ⟨sch, rest.take 11, (rest.drop 11).dropWhile (fun c => c != '\n'),
          ?_, hsch, hlow2, ?_, firstLine_all_ne _, dropWhile_newline_head _⟩
        · rw [hu]
          conv_lhs => rw [hrest, hsplit2]
          simp [List.append_assoc]
        · intro hnil
          rw [hnil] at hcap
          simp at hcap
    · rw [if_neg hgh] at h
      simp at h

/-- The Github pattern matches every URL of the Github shape. -/
lemma matchGithub_complete {u : List Char} (h : IsGithubUrl u) :
    (matchGithub u).isSome = true := by
  obtain ⟨sch, gh, c, rest2, hu, hsch, hlow, hnl⟩ := h
  have hassoc : u = sch ++ sepChars ++ (gh ++ c :: rest2) := by
    rw [hu]; simp [List.append_assoc]
  have hlen : gh.length = 11 := by
    have := lowerEq_length hlow
    simpa using this
  have hc : c ≠ '\n' := hnl c (by simp)
  unfold matchGithub
  rw [hassoc, schemeSplit_complete hsch]
  simp only
  have hsub : substrCIAt ghHost (gh ++ c :: rest2) 0 = true := by
    have := @substrCIAt_of_append ghHost [] gh (c :: rest2) hlow
    simpa using this
  rw [if_pos hsub, List.drop_left' hlen]
  have hfl : firstLine (c :: rest2) = c :: firstLine rest2 := by
    unfold firstLine
    rw [List.takeWhile_cons_of_pos (by simpa using hc)]
  rw [hfl]
  simp

/-- A Github identifier decomposition witnesses the Github URL shape. -/
lemma isGithubUrl_of_spec {u ident : List Char} (h : GithubIdentSpec u ident) :
    IsGithubUrl u := by
  obtain ⟨sch, gh, tail, hu, hsch, hlow, hne, hnl, -⟩ := h
  cases hident : ident with
  | nil => exact absurd hident hne
  | cons c rest2 =>
    subst hident
    refine ⟨sch, gh, c, rest2 ++ tail, ?_, hsch, hlow, ?_⟩
    · rw [hu]; simp [List.append_assoc]
    · intro x hx
      rcases List.mem_append.mp hx with hx | hx
      · exact noNl_of_lowerEq hlow (by decide) x hx
      · simp only [List.mem_singleton] at hx
        subst hx
        exact hnl _ (by simp)

/-- The Github matcher succeeds exactly on URLs of the Github shape. -/
lemma matchGithub_iff (u : List Char) : (matchGithub u).isSome = true ↔ IsGithubUrl u := by
  constructor
  · intro h
    obtain ⟨cap, hm⟩ := Option.isSome_iff_exists.mp h
    exact isGithubUrl_of_spec (matchGithub_some_sound hm)
  · exact matchGithub_complete

/-- A successful TFVC match yields the documented identifier decomposition:
the path captured is the text between a case-insensitive
`<account>.visualstudio.com/` occurrence and the end of the first line. -/
lemma matchTfvc_some_sound {u acct path : List Char} (h : matchTfvc u = some (acct, path)) :
    TfvcIdentSpec u path := by
  unfold matchTfvc at h
  cases hs : schemeSplit u with
  | none => rw [hs] at h; simp at h
  | some v =>
    obtain ⟨sch, rest⟩ := v
    rw [hs] at h
    simp only at h
    cases hf : findLastIdx
        (fun p => decide (1 ≤ p) && substrCIAt vsHostSlash (firstLine rest) p &&
          decide (p + 18 < (firstLine rest).length)) (firstLine rest).length with
    | none => rw [hf] at h; simp at h
    | some p =>
      rw [hf] at h
      simp only [Option.some.injEq, Prod.mk.injEq] at h
      obtain ⟨h1, h2⟩ := h
      subst h1
      subst h2
      obtain ⟨hplt, hok⟩ := findLastIdx_sound hf
      simp only [Bool.and_eq_true, decide_eq_true_eq] at hok
      obtain ⟨⟨hp1, hsub⟩, hlt⟩ := hok
      obtain ⟨hu, hsch⟩ := schemeSplit_sound hs
      obtain ⟨hrec, hlow, hlen⟩ := substrCIAt_reconstruct (by decide : vsHostSlash ≠ []) hsub
      have h18 : vsHostSlash.length = 18 := rfl
      rw [h18] at hrec hlow hlen
      refine ⟨sch, (firstLine rest).take p, ((firstLine rest).drop p).take 18,
        rest.dropWhile (fun c => c != '\n'), ?_, hsch, ?_, ?_, hlow, ?_, ?_,
        dropWhile_newline_head _⟩
      · rw [hu]
        conv_lhs => rw [firstLine_append_drop rest]
        conv_lhs => rw [hrec]
        simp [List.append_assoc]
      · intro hnil
        have hlen0 := congrArg List.length hnil
        rw [List.length_take] at hlen0
        simp only [List.length_nil] at hlen0
        omega
      · intro x hx
        exact firstLine_all_ne rest x (List.take_subset _ _ hx)
      · intro hnil
        have hlen0 := congrArg List.length hnil
        rw [List.length_drop] at hlen0
        simp only [List.length_nil] at hlen0
        omega
      · intro x hx
        exact firstLine_all_ne rest x (List.drop_subset _ _ hx)

/-- The TFVC pattern matches every URL of the hosted version-control shape. -/
lemma matchTfvc_complete {u : List Char} (h : IsTfvcUrl u) :
    (matchTfvc u).isSome = true := by
  obtain ⟨sch, acct, vs, c, rest2, hu, hsch, hacct, hlow, hnl⟩ := h
  have hassoc : u = sch ++ sepChars ++ (acct ++ vs ++ c :: rest2) := by
    rw [hu]; simp [List.append_assoc]
  have hlen : vs.length = 18 := by
    have := lowerEq_length hlow
    simpa using this
  have hnlP : ∀ x ∈ acct ++ vs, x ≠ '\n' := by
    intro x hx
    exact hnl x (List.mem_append_left _ hx)
  have hc : c ≠ '\n' := hnl c (by simp)
  have hfl : firstLine (c :: rest2) = c :: firstLine rest2 := by
    unfold firstLine
    rw [List.takeWhile_cons_of_pos (by simpa using hc)]
  have hline : firstLine (acct ++ vs ++ c :: rest2) = acct ++ vs ++ c :: firstLine rest2 := by
    rw [firstLine_append_of_noNl hnlP, hfl]
  unfold matchTfvc
  rw [hassoc, schemeSplit_complete hsch]
  simp only
  rw [hline]
  have hsub : substrCIAt vsHostSlash (acct ++ vs ++ c :: firstLine rest2) acct.length = true :=
    substrCIAt_of_append hlow
  have hlt : acct.length + 18 < (acct ++ vs ++ c :: firstLine rest2).length := by
    simp [hlen]
  have hok : (fun p => decide (1 ≤ p) &&
      substrCIAt vsHostSlash (acct ++ vs ++ c :: firstLine rest2) p &&
      decide (p + 18 < (acct ++ vs ++ c :: firstLine rest2).length)) acct.length = true := by
    simp only [Bool.and_eq_true, decide_eq_true_eq]
    have hpos : 0 < acct.length := List.length_pos.mpr hacct
    exact ⟨⟨by omega, hsub⟩, hlt⟩
  have hfind : (findLastIdx
      (fun p => decide (1 ≤ p) &&
        substrCIAt vsHostSlash (acct ++ vs ++ c :: firstLine rest2) p &&
        decide (p + 18 < (acct ++ vs ++ c :: firstLine rest2).length))
      (acct ++ vs ++ c :: firstLine rest2).length).isSome = true :=
    findLastIdx_isSome (by omega) hok
  obtain ⟨p, hp⟩ := Option.isSome_iff_exists.mp hfind
  rw [hp]
  rfl

/-- A TFVC identifier decomposition witnesses the hosted version-control
shape. -/
lemma isTfvcUrl_of_spec {u ident : List Char} (h : TfvcIdentSpec u ident) : IsTfvcUrl u := by
  obtain ⟨sch, acct, vs, tail, hu, hsch, hacct, hnlacct, hlow, hne, hnl, -⟩ := h
  cases hident : ident with
  | nil => exact absurd hident hne
  | cons c rest2 =>
    subst hident
    refine ⟨sch, acct, vs, c, rest2 ++ tail, ?_, hsch, hacct, hlow, ?_⟩
    · rw [hu]; simp [List.append_assoc]
    · intro x hx
      rcases List.mem_append.mp hx with hx | hx
      · rcases List.mem_append.mp hx with hx | hx
        · exact hnlacct x hx
        · exact noNl_of_lowerEq hlow (by decide) x hx
      · simp only [List.mem_singleton] at hx
        subst hx
        exact hnl _ (by simp)

/-- The TFVC matcher succeeds exactly on URLs of the hosted version-control
shape. -/
lemma matchTfvc_iff (u : List Char) : (matchTfvc u).isSome = true ↔ IsTfvcUrl u := by
  constructor
  · intro h
    obtain ⟨v, hm⟩ := Option.isSome_iff_exists.mp h
    obtain ⟨a, b⟩ := v
    exact isTfvcUrl_of_spec (matchTfvc_some_sound hm)
  · exact matchTfvc_complete

/-- A case-insensitive literal occurrence at any position whose suffix starts
with a `LowerEq` segment. -/
lemma substrCIAt_of_drop {pat s mid post : List Char} {i : Nat}
    (hdrop : s.drop i = mid ++ post) (hm : LowerEq mid pat) :
    substrCIAt pat s i = true := by
  unfold substrCIAt eqCI
  rw [hdrop, List.take_left' (lowerEq_length hm), hm]
  simp

/-- A successful hosted-git match witnesses the hosted-git URL shape. -/
lemma matchVsGit_some_sound {u acct g2 : List Char} (h : matchVsGit u = some (acct, g2)) :
    IsHostedGitUrl u := by
  unfold matchVsGit at h
  cases hs : schemeSplit u with
  | none => rw [hs] at h; simp at h
  | some v =>
    obtain ⟨sch, rest⟩ := v
    rw [hs] at h
    simp only at h
    cases hf : findLastIdx
        (fun p => decide (1 ≤ p) && substrCIAt vsHost (firstLine rest) p &&
          (findLastIdx (fun q => gitPosOk (firstLine rest) p q) (firstLine rest).length).isSome)
        (firstLine rest).length with
    | none => rw [hf] at h; simp at h
    | some p =>
      rw [hf] at h
      simp only at h
      cases hg : findLastIdx (fun q => gitPosOk (firstLine rest) p q) (firstLine rest).length with
      | none => rw [hg] at h; simp at h
      | some q =>
        rw [hg] at h
        simp only [Option.some.injEq, Prod.mk.injEq] at h
        obtain ⟨hplt, hokp⟩ := findLastIdx_sound hf
        simp only [Bool.and_eq_true, decide_eq_true_eq] at hokp
        obtain ⟨⟨hp1, hsubp⟩, -⟩ := hokp
        obtain ⟨hqlt, hokq⟩ := findLastIdx_sound hg
        unfold gitPosOk at hokq
        simp only [Bool.and_eq_true, decide_eq_true_eq] at hokq
        obtain ⟨⟨hpq, hsubq⟩, hqlt6⟩ := hokq
        obtain ⟨hu, hsch⟩ := schemeSplit_sound hs
        obtain ⟨hrecP, hlowP, hlenP⟩ := substrCIAt_reconstruct (by decide : vsHost ≠ []) hsubp
        obtain ⟨-, hlowQ, hlenQ⟩ := substrCIAt_reconstruct (by decide : gitSeg ≠ []) hsubq
        have h17 : vsHost.length = 17 := rfl
        have h6 : gitSeg.length = 6 := rfl
        rw [h17] at hrecP hlowP hlenP
        rw [h6] at hlowQ hlenQ
        have hdropP : (firstLine rest).drop (p + 17) =
            ((firstLine rest).drop (p + 17)).take (q - (p + 17)) ++ (firstLine rest).drop q := by
          conv_lhs => rw [← List.take_append_drop (q - (p + 17)) ((firstLine rest).drop (p + 17))]
          rw [List.drop_drop, show p + 17 + (q - (p + 17)) = q from by omega]
        have hdropQ : (firstLine rest).drop q =
            ((firstLine rest).drop q).take 6 ++ (firstLine rest).drop (q + 6) := by
          conv_lhs => rw [← List.take_append_drop 6 ((firstLine rest).drop q)]
          rw [List.drop_drop]
        have hrepo : ∃ c rest3, (firstLine rest).drop (q + 6) = c :: rest3 := by
          cases hd : (firstLine rest).drop (q + 6) with
          | nil =>
            exfalso
            have hlen0 := congrArg List.length hd
            rw [List.length_drop] at hlen0
            simp only [List.length_nil] at hlen0
            omega
          | cons c r3 => exact ⟨c, r3, rfl⟩
        obtain ⟨c, rest3, hcr⟩ := hrepo
        have hcmem : c ∈ firstLine rest := by
          have hmem0 : c ∈ (firstLine rest).drop (q + 6) := by rw [hcr]; simp
          exact List.drop_subset _ _ hmem0
        refine ⟨sch, (firstLine rest).take p, ((firstLine rest).drop p).take 17,
          ((firstLine rest).drop (p + 17)).take (q - (p + 17)), ((firstLine rest).drop q).take 6,
          c, rest3 ++ rest.dropWhile (fun x => x != '\n'), ?_, hsch, ?_, hlowP, hlowQ, ?_⟩
        · rw [hu]
          conv_lhs => rw [firstLine_append_drop rest]
          conv_lhs => rw [hrecP]
          conv_lhs => rw [hdropP]
          conv_lhs => rw [hdropQ]
          conv_lhs => rw [hcr]
          simp [List.append_assoc]
        · intro hnil
          have hlen0 := congrArg List.length hnil
          rw [List.length_take] at hlen0
          simp only [List.length_nil] at hlen0
          omega
        · intro x hx
          rcases List.mem_append.mp hx with hx | hx
          · rcases List.mem_append.mp hx with hx | hx
            · rcases List.mem_append.mp hx with hx | hx
              · rcases List.mem_append.mp hx with hx | hx
                · exact firstLine_all_ne rest x (List.take_subset _ _ hx)
                · exact firstLine_all_ne rest x
                    (List.drop_subset _ _ (List.take_subset _ _ hx))
              · exact firstLine_all_ne rest x
                  (List.drop_subset _ _ (List.take_subset _ _ hx))
            · exact firstLine_all_ne rest x
                (List.drop_subset _ _ (List.take_subset _ _ hx))
          · simp only [List.mem_singleton] at hx
            subst hx
            exact firstLine_all_ne rest _ hcmem

/-- The hosted-git pattern matches every URL of the hosted-git shape. -/
lemma matchVsGit_complete {u : List Char} (h : IsHostedGitUrl u) :
    (matchVsGit u).isSome = true := by
  obtain ⟨sch, acct, vs, mid, git, c, rest2, hu, hsch, hacct, hlowV, hlowG, hnl⟩ := h
  have hassoc : u = sch ++ sepChars ++ (acct ++ vs ++ mid ++ git ++ c :: rest2) := by
    rw [hu]; simp [List.append_assoc]
  have hlenV : vs.length = 17 := by simpa using lowerEq_length hlowV
  have hlenG : git.length = 6 := by simpa using lowerEq_length hlowG
  have hnlP : ∀ x ∈ acct ++ vs ++ mid ++ git, x ≠ '\n' := by
    intro x hx
    exact hnl x (List.mem_append_left _ hx)
  have hc : c ≠ '\n' := hnl c (by simp)
  have hfl : firstLine (c :: rest2) = c :: firstLine rest2 := by
    unfold firstLine
    rw [List.takeWhile_cons_of_pos (by simpa using hc)]
  have hline : firstLine (acct ++ vs ++ mid ++ git ++ c :: rest2) =
      acct ++ vs ++ mid ++ git ++ c :: firstLine rest2 := by
    rw [firstLine_append_of_noNl hnlP, hfl]
  have hd1 : (acct ++ vs ++ mid ++ git ++ c :: firstLine rest2).drop acct.length =
      vs ++ (mid ++ (git ++ (c :: firstLine rest2))) := by
    rw [show acct ++ vs ++ mid ++ git ++ c :: firstLine rest2 =
      acct ++ (vs ++ (mid ++ (git ++ (c :: firstLine rest2)))) from by simp [List.append_assoc]]
    exact List.drop_left _ _
  have hsubV : substrCIAt vsHost (acct ++ vs ++ mid ++ git ++ c :: firstLine rest2)
      acct.length = true :=
    substrCIAt_of_drop hd1 hlowV
  have hd2 : (acct ++ vs ++ mid ++ git ++ c :: firstLine rest2).drop
      (acct.length + 17 + mid.length) = git ++ (c :: firstLine rest2) := by
    rw [show acct ++ vs ++ mid ++ git ++ c :: firstLine rest2 =
      (acct ++ vs ++ mid) ++ (git ++ (c :: firstLine rest2)) from by simp [List.append_assoc]]
    refine List.drop_left' ?_
    simp only [List.length_append, hlenV]
  have hsubG : substrCIAt gitSeg (acct ++ vs ++ mid ++ git ++ c :: firstLine rest2)
      (acct.length + 17 + mid.length) = true :=
    substrCIAt_of_drop hd2 hlowG
  have hlen1 : acct.length + 17 + mid.length + 6 <
      (acct ++ vs ++ mid ++ git ++ c :: firstLine rest2).length := by
    simp only [List.length_append, List.length_cons, hlenV, hlenG]
    omega
  have hposA : 0 < acct.length := List.length_pos.mpr hacct
  have hokq : gitPosOk (acct ++ vs ++ mid ++ git ++ c :: firstLine rest2) acct.length
      (acct.length + 17 + mid.length) = true := by
    unfold gitPosOk
    simp only [Bool.and_eq_true, decide_eq_true_eq]
    exact ⟨⟨by omega, hsubG⟩, by omega⟩
  have hinner : (findLastIdx
      (fun q => gitPosOk (acct ++ vs ++ mid ++ git ++ c :: firstLine rest2) acct.length q)
      (acct ++ vs ++ mid ++ git ++ c :: firstLine rest2).length).isSome = true :=
    findLastIdx_isSome (by omega) hokq
  have hokp : (fun p => decide (1 ≤ p) &&
      substrCIAt vsHost (acct ++ vs ++ mid ++ git ++ c :: firstLine rest2) p &&
      (findLastIdx (fun q => gitPosOk (acct ++ vs ++ mid ++ git ++ c :: firstLine rest2) p q)
        (acct ++ vs ++ mid ++ git ++ c :: firstLine rest2).length).isSome) acct.length = true := by
    simp only [Bool.and_eq_true, decide_eq_true_eq]
    exact ⟨⟨by omega, hsubV⟩, hinner⟩
  have houter : (findLastIdx (fun p => decide (1 ≤ p) &&
      substrCIAt vsHost (acct ++ vs ++ mid ++ git ++ c :: firstLine rest2) p &&
      (findLastIdx (fun q => gitPosOk (acct ++ vs ++ mid ++ git ++ c :: firstLine rest2) p q)
        (acct ++ vs ++ mid ++ git ++ c :: firstLine rest2).length).isSome)
      (acct ++ vs ++ mid ++ git ++ c :: firstLine rest2).length).isSome = true :=
    findLastIdx_isSome (by omega) hokp
  unfold matchVsGit
  rw [hassoc, schemeSplit_complete hsch]
  simp only
  rw [hline]
  obtain ⟨p, hp⟩ := Option.isSome_iff_exists.mp houter
  rw [hp]
  simp only
  obtain ⟨-, hokp2⟩ := findLastIdx_sound hp
  simp only [Bool.and_eq_true] at hokp2
  obtain ⟨-, hinner2⟩ := hokp2
  obtain ⟨q, hq⟩ := Option.isSome_iff_exists.mp hinner2
  rw [hq]
  rfl

/-- The hosted-git matcher succeeds exactly on URLs of the hosted-git shape. -/
lemma matchVsGit_iff (u : List Char) : (matchVsGit u).isSome = true ↔ IsHostedGitUrl u := by
  constructor
  · intro h
    obtain ⟨v, hm⟩ := Option.isSome_iff_exists.mp h
    obtain ⟨a, b⟩ := v
    exact matchVsGit_some_sound hm
  · exact matchVsGit_complete

/-- C5: the resolver classifies URLs by the three patterns in fixed order with
first match winning. Each matcher succeeds exactly on its URL shape; a
hosted-git URL resolves to `TfsGit` with the identifier taken from the
repository-info lookup; otherwise a Github-shaped URL resolves to `Github`
with the text after `github.com/` (to the end of the line) as identifier;
otherwise a hosted version-control URL resolves to `TFVC` with the path after
`<account>.visualstudio.com/` as identifier; a URL matching none of the
patterns resolves to `ExternalGit` with the full URL as identifier. -/
theorem c5_url_resolver (uri : String) (token : Option String) (branch : String)
    (info : VstsInfo) :
    ((matchVsGit uri.data).isSome = true ↔ IsHostedGitUrl uri.data) ∧
    ((matchGithub uri.data).isSome = true ↔ IsGithubUrl uri.data) ∧
    ((matchTfvc uri.data).isSome = true ↔ IsTfvcUrl uri.data) ∧
    (IsHostedGitUrl uri.data →
      (get_source_repository uri token branch info).1.type = "TfsGit" ∧
      (get_source_repository uri token branch info).1.identifier = info.repository_info.id ∧
      (get_source_repository uri token branch info).2.2.2 = [NetCall.getVstsInfo]) ∧
    (¬ IsHostedGitUrl uri.data → IsGithubUrl uri.data →
      (get_source_repository uri token branch info).1.type = "Github" ∧
      GithubIdentSpec uri.data (get_source_repository uri token branch info).1.identifier.data ∧
      (get_source_repository uri token branch info).2.2.2 = []) ∧
    (¬ IsHostedGitUrl uri.data → ¬ IsGithubUrl uri.data → IsTfvcUrl uri.data →
      (get_source_repository uri token branch info).1.type = "TFVC" ∧
      TfvcIdentSpec uri.data (get_source_repository uri token branch info).1.identifier.data ∧
      (get_source_repository uri token branch info).2.2.2 = []) ∧
    (¬ IsHostedGitUrl uri.data → ¬ IsGithubUrl uri.data → ¬ IsTfvcUrl uri.data →
      (get_source_repository uri token branch info).1.type = "ExternalGit" ∧
      (get_source_repository uri token branch info).1.identifier = uri ∧
      (get_source_repository uri token branch info).2.2.2 = []) := by
  refine ⟨matchVsGit_iff _, matchGithub_iff _, matchTfvc_iff _, ?_, ?_, ?_, ?_⟩
  · intro hH
    obtain ⟨v, hm⟩ := Option.isSome_iff_exists.mp ((matchVsGit_iff uri.data).mpr hH)
    obtain ⟨a, g⟩ := v
    refine ⟨?_, ?_, ?_⟩ <;> simp [get_source_repository, hm]
  · intro hnH hG
    have h1 : matchVsGit uri.data = none := by
      cases hv : matchVsGit uri.data with
      | none => rfl
      | some v => exact absurd ((matchVsGit_iff uri.data).mp (by rw [hv]; rfl)) hnH
    obtain ⟨cap, hm⟩ := Option.isSome_iff_exists.mp ((matchGithub_iff uri.data).mpr hG)
    have hspec := matchGithub_some_sound hm
    refine ⟨by simp [get_source_repository, h1, hm], ?_, by simp [get_source_repository, h1, hm]⟩
    have hid : (get_source_repository uri token branch info).1.identifier = String.mk cap := by
      simp [get_source_repository, h1, hm]
    rw [hid]
    exact hspec
  · intro hnH hnG hT
    have h1 : matchVsGit uri.data = none := by
      cases hv : matchVsGit uri.data with
      | none => rfl
      | some v => exact absurd ((matchVsGit_iff uri.data).mp (by rw [hv]; rfl)) hnH
    have h2 : matchGithub uri.data = none := by
      cases hv : matchGithub uri.data with
      | none => rfl
      | some v => exact absurd ((matchGithub_iff uri.data).mp (by rw [hv]; rfl)) hnG
    obtain ⟨v, hm⟩ := Option.isSome_iff_exists.mp ((matchTfvc_iff uri.data).mpr hT)
    obtain ⟨a, pth⟩ := v
    have hspec := matchTfvc_some_sound hm
    refine ⟨by simp [get_source_repository, h1, h2, hm], ?_,
      by simp [get_source_repository, h1, h2, hm]⟩
    have hid : (get_source_repository uri token branch info).1.identifier = String.mk pth := by
      simp [get_source_repository, h1, h2, hm]
    rw [hid]
    exact hspec
  · intro hnH hnG hnT
    have h1 : matchVsGit uri.data = none := by
      cases hv : matchVsGit uri.data with
      | none => rfl
      | some v => exact absurd ((matchVsGit_iff uri.data).mp (by rw [hv]; rfl)) hnH
    have h2 : matchGithub uri.data = none := by
      cases hv : matchGithub uri.data with
      | none => rfl
      | some v => exact absurd ((matchGithub_iff uri.data).mp (by rw [hv]; rfl)) hnG
    have h3 : matchTfvc uri.data = none := by
      cases hv : matchTfvc uri.data with
      | none => rfl
      | some v => exact absurd ((matchTfvc_iff uri.data).mp (by rw [hv]; rfl)) hnT
    refine ⟨?_, ?_, ?_⟩ <;> simp [get_source_repository, h1, h2, h3]

/-- Witness for C5 at the Github-shaped URL `https://github.com/o/r`. -/
theorem c5_witness :
    (get_source_repository "https://github.com/o/r" none "b" sampleVstsInfo).1.type = "Github" ∧
    GithubIdentSpec ("https://github.com/o/r".data)
      ((get_source_repository "https://github.com/o/r" none "b" sampleVstsInfo).1.identifier.data) ∧
    (get_source_repository "https://github.com/o/r" none "b" sampleVstsInfo).2.2.2 = [] := by
  have h := c5_url_resolver "https://github.com/o/r" none "b" sampleVstsInfo
  refine h.2.2.2.2.1 ?_ ?_
  · intro hH
    have hsome := (matchVsGit_iff ("https://github.com/o/r".data)).mpr hH
    rw [show matchVsGit ("https://github.com/o/r".data) = none from rfl] at hsome
    simp at hsome
  · exact ⟨"https".data, "github.com/".data, 'o', "/r".data,
      by decide, ⟨by decide, by decide⟩, rfl, by unfold NoNl; decide⟩
